import Mathlib

/-!
Verification of the core decision logic of the Akashi seat-checker app
(`src/app.py`): the tide-status resolver `get_tide_status`, the seat
classifier `judge_seat_detailed` and the compass labeler `get_wind_label`.

Modelling conventions:
* Timestamps are rational numbers of seconds measured from the fallback
  model's anchor instant 2024-01-01 00:00 (`base_time`), so subtraction of
  two timestamps yields `total_seconds()` directly.
* Python float arithmetic is idealised as exact rational arithmetic; the
  one transcendental operation, `math.sin`, is idealised as `Real.sin`.
* Python's `%` on floats (result carries the divisor's sign, so it lies in
  `[0, y)` for `y > 0`) is modelled by `pymod`.
* The Japanese label strings of the source are kept verbatim:
  "転流" = turning, "潮止まり" = calm/slack, "西流" = west-flow,
  "東流" = east-flow, "西流(予)" / "東流(予)" = estimated west/east flow,
  "判断不可" = undeterminable, and type "real" = observed,
  "calc" = estimated.
-/

attribute [local semireducible] Rat.add Rat.sub Rat.mul Rat.inv Rat.ofScientific

/-- Python `x % y` on reals: `x - y * floor (x / y)`.  For `y > 0` the
result lies in `[0, y)`. -/
def pymod (x y : ℚ) : ℚ := x - y * ⌊x / y⌋

/-- A parsed tide event (`get_real_tide_data` output entry):
`{"time": dt, "dir": d, "label": l}`. -/
structure TideEvent where
  time : ℚ
  dir : Option ℚ
  label : String
  deriving DecidableEq

/-- The value returned by `get_tide_status`:
`{"dir": ..., "label": ..., "type": ...}`. -/
structure TideStatus where
  dir : Option ℚ
  label : String
  type : String
  deriving DecidableEq

/-- `min(tide_events, key=lambda e: abs((dt - e["time"]).total_seconds()))`
(src/app.py line 103) on the non-empty list `e :: es`.  Python's `min`
keeps the first element attaining the minimal key: a later element
replaces the current best only when its key is strictly smaller. -/
def closestEvent (dt : ℚ) (e : TideEvent) (es : List TideEvent) : TideEvent :=
  es.foldl (fun best x => if |dt - x.time| < |dt - best.time| then x else best) e

/-- Lines 109-110 of src/app.py on the non-empty list `e :: es`:
`past = [e for e in tide_events if e["time"] <= dt]`;
`current = past[-1] if past else tide_events[0]`. -/
def pastCurrent (dt : ℚ) (e : TideEvent) (es : List TideEvent) : TideEvent :=
  (((e :: es).filter (fun ev => ev.time ≤ dt)).getLast?).getD e

/-- Lines 103-114 of src/app.py: the observed-data branch of
`get_tide_status`, on the non-empty list `e :: es`. -/
def resolveEvents (dt : ℚ) (e : TideEvent) (es : List TideEvent) : TideStatus :=
  let closest := closestEvent dt e es
  let diff_min := |dt - closest.time| / 60
  if closest.label = "転流" ∧ diff_min ≤ 40 then
    ⟨none, "潮止まり", "real"⟩
  else
    let current := pastCurrent dt e es
    let current :=
      if current.label = "転流" then
        match (e :: es).filter (fun ev => dt < ev.time) with
        | [] => current
        | f :: _ => f
      else current
    ⟨current.dir, current.label, "real"⟩

/-- `base_time = datetime.datetime(2024, 1, 1, 0, 0)` (line 117).  All
timestamps are modelled as seconds from this anchor, so it is `0`. -/
def base_time : ℚ := 0

/-- Lines 117-122 of src/app.py: the computed fallback used when no tide
events are available.  `diff_hours * 2 * π / 12.4` with
`diff_hours = (dt - base_time).total_seconds() / 3600`. -/
noncomputable def tideFallback (dt : ℚ) : TideStatus :=
  let diff_hours : ℝ := ((dt : ℝ) - (base_time : ℝ)) / 3600
  let cycle := Real.sin (diff_hours * 2 * Real.pi / 12.4)
  if cycle > 0.3 then ⟨some 270, "西流(予)", "calc"⟩
  else if cycle < -0.3 then ⟨some 90, "東流(予)", "calc"⟩
  else ⟨none, "潮止まり", "calc"⟩

/-- `get_tide_status(dt, tide_events)` (lines 99-122).  `if tide_events:`
is false for both `None` and the empty list, which the model merges into
`[]`. -/
noncomputable def get_tide_status (dt : ℚ) (tide_events : List TideEvent) : TideStatus :=
  match tide_events with
  | e :: es => resolveEvents dt e es
  | [] => tideFallback dt

/-- `judge_seat_detailed(wind_dir, tide_dir, wind_speed)` (lines 124-145).
Returns the seat name and its colour code.  The Python guard
`tide_dir is None or wind_speed < 1.0` is rendered as a match on the
option followed by the speed test (same short-circuit behaviour). -/
def judge_seat_detailed (wind_dir : ℚ) (tide_dir : Option ℚ) (wind_speed : ℚ) :
    String × String :=
  match tide_dir with
  | none => ("判断不可", "#b2bec3")
  | some td =>
    if wind_speed < 1 then ("判断不可", "#b2bec3")
    else
      let boat_heading := wind_dir
      let rel := pymod (td - boat_heading) 360
      if 0 ≤ rel ∧ rel < 45 then ("🟢右ミヨシ(前)", "#00b894")
      else if 45 ≤ rel ∧ rel < 135 then ("🟢右舷 胴", "#55efc4")
      else if 135 ≤ rel ∧ rel < 180 then ("🟢右トモ(後)", "#00cec9")
      else if 180 ≤ rel ∧ rel < 225 then ("🔴左トモ(後)", "#6c5ce7")
      else if 225 ≤ rel ∧ rel < 315 then ("🔴左舷 胴", "#fab1a0")
      else if 315 ≤ rel ∧ rel < 360 then ("🔴左ミヨシ(前)", "#e17055")
      else ("-", "#b2bec3")

/-- `get_wind_label(d)` (lines 147-149): `dirs[int((d + 22.5)%360/45)]`.
The argument of `int` is non-negative, so `int` is `floor`; the index is
always in `[0, 8)` (proved below), so the `getD` default is never used. -/
def get_wind_label (d : ℚ) : String :=
  (["北", "北東", "東", "南東", "南", "南西", "西", "北西"]).getD
    (Int.toNat ⌊pymod (d + 22.5) 360 / 45⌋) ""

/-- The seven defined outcomes of `judge_seat_detailed`: the six seat
sectors and the undeterminable result.  The trailing `("-", "#b2bec3")`
fallback of the source is not among them. -/
def seatResults : List (String × String) :=
  [("判断不可", "#b2bec3"),
   ("🟢右ミヨシ(前)", "#00b894"), ("🟢右舷 胴", "#55efc4"), ("🟢右トモ(後)", "#00cec9"),
   ("🔴左トモ(後)", "#6c5ce7"), ("🔴左舷 胴", "#fab1a0"), ("🔴左ミヨシ(前)", "#e17055")]

lemma pymod_nonneg (x : ℚ) {y : ℚ} (hy : 0 < y) : 0 ≤ pymod x y := by
  have h1 : (⌊x / y⌋ : ℚ) ≤ x / y := Int.floor_le _
  have h2 : y * (⌊x / y⌋ : ℚ) ≤ y * (x / y) := by
    exact mul_le_mul_of_nonneg_left h1 (le_of_lt hy)
  have h3 : y * (x / y) = x := by
    rw [mul_comm]; exact div_mul_cancel₀ x (ne_of_gt hy)
  simp only [pymod]
  linarith

lemma pymod_lt (x : ℚ) {y : ℚ} (hy : 0 < y) : pymod x y < y := by
  have h1 : x / y < (⌊x / y⌋ : ℚ) + 1 := Int.lt_floor_add_one _
  have h2 : y * (x / y) < y * ((⌊x / y⌋ : ℚ) + 1) := by
    exact mul_lt_mul_of_pos_left h1 hy
  have h3 : y * (x / y) = x := by
    rw [mul_comm]; exact div_mul_cancel₀ x (ne_of_gt hy)
  simp only [pymod]
  nlinarith

lemma pymod_add_mul_int (x y : ℚ) (k : ℤ) (hy : y ≠ 0) :
    pymod (x + y * k) y = pymod x y := by
  have h1 : (x + y * k) / y = x / y + k := by
    field_simp
    ring
  simp only [pymod, h1, Int.floor_add_int]
  push_cast
  ring

/-- After the guards, `judge_seat_detailed` on a present tide direction is
the bare sector cascade on `rel = pymod (td - w) 360`. -/
lemma judge_seat_some_eq (w td s : ℚ) (hs : ¬ s < 1) :
    judge_seat_detailed w (some td) s =
      (if 0 ≤ pymod (td - w) 360 ∧ pymod (td - w) 360 < 45 then ("🟢右ミヨシ(前)", "#00b894")
       else if 45 ≤ pymod (td - w) 360 ∧ pymod (td - w) 360 < 135 then ("🟢右舷 胴", "#55efc4")
       else if 135 ≤ pymod (td - w) 360 ∧ pymod (td - w) 360 < 180 then ("🟢右トモ(後)", "#00cec9")
       else if 180 ≤ pymod (td - w) 360 ∧ pymod (td - w) 360 < 225 then ("🔴左トモ(後)", "#6c5ce7")
       else if 225 ≤ pymod (td - w) 360 ∧ pymod (td - w) 360 < 315 then ("🔴左舷 胴", "#fab1a0")
       else if 315 ≤ pymod (td - w) 360 ∧ pymod (td - w) 360 < 360 then ("🔴左ミヨシ(前)", "#e17055")
       else ("-", "#b2bec3")) := by
  simp only [judge_seat_detailed, if_neg hs]

/-- Any output of `judge_seat_detailed` on a present tide direction is one
of the seven defined results: the sector cascade covers all of `[0, 360)`
and `rel` always lies there. -/
lemma judge_seat_mem (w td s : ℚ) : judge_seat_detailed w (some td) s ∈ seatResults := by
  by_cases hs : s < 1
  · simp only [judge_seat_detailed, if_pos hs]
    decide
  · rw [judge_seat_some_eq w td s hs]
    have h0 : 0 ≤ pymod (td - w) 360 := pymod_nonneg _ (by norm_num)
    have h360 : pymod (td - w) 360 < 360 := pymod_lt _ (by norm_num)
    split_ifs with c1 c2 c3 c4 c5 c6
    · decide
    · decide
    · decide
    · decide
    · decide
    · decide
    · exfalso
      push_neg at c1 c2 c3 c4 c5 c6
      have k1 := c1 h0
      have k2 := c2 k1
      have k3 := c3 k2
      have k4 := c4 k3
      have k5 := c5 k4
      have k6 := c6 k5
      linarith

/-- C10: for every well-formed input (wind direction in `[0, 360)`,
non-negative wind speed, tide direction in `{90, 270, null}`),
`judge_seat_detailed` is total and returns one of the seven defined
results; the trailing `("-", ...)` fallback branch is unreachable. -/
theorem judge_seat_total (w s : ℚ) (t : Option ℚ)
    (hw0 : 0 ≤ w) (hw1 : w < 360) (hs : 0 ≤ s)
    (ht : t = some 90 ∨ t = some 270 ∨ t = none) :
    judge_seat_detailed w t s ∈ seatResults := by
  rcases ht with h | h | h <;> subst h
  · exact judge_seat_mem w 90 s
  · exact judge_seat_mem w 270 s
  · simp only [judge_seat_detailed]
    decide

/-- Witness for C10 at `wind_dir = 0`, `tide_dir = 90`, `wind_speed = 0`. -/
theorem judge_seat_total_witness :
    (0:ℚ) ≤ 0 ∧ (0:ℚ) < 360 ∧ (0:ℚ) ≤ 0 ∧
    judge_seat_detailed 0 (some 90) 0 ∈ seatResults :=
  ⟨le_refl 0, by norm_num, le_refl 0,
    judge_seat_total 0 0 (some 90) (le_refl 0) (by norm_num) (le_refl 0) (Or.inl rfl)⟩

/-- C7: whenever the tide direction is absent or the wind speed is below
1.0 m/s, `judge_seat_detailed` returns the undeterminable result, whatever
the direction values are. -/
theorem judge_seat_undeterminable (w s : ℚ) (t : Option ℚ) (h : t = none ∨ s < 1) :
    judge_seat_detailed w t s = ("判断不可", "#b2bec3") := by
  rcases h with h | h
  · subst h; rfl
  · cases t with
    | none => rfl
    | some td => simp only [judge_seat_detailed, if_pos h]

/-- Witness for C7 at `tide_dir = none`, `wind_speed = 5`. -/
theorem judge_seat_undeterminable_witness :
    ((none : Option ℚ) = none ∨ (5:ℚ) < 1) ∧
    judge_seat_detailed 0 none 5 = ("判断不可", "#b2bec3") :=
  ⟨Or.inl rfl, judge_seat_undeterminable 0 5 none (Or.inl rfl)⟩

/-- C9: `rel = pymod (tide_dir - wind_dir) 360` always lies in `[0, 360)`,
and the classifier is invariant under rotating both directions by the same
amount `r` (reduced mod 360), for present and absent tide directions
alike. -/
theorem judge_seat_rotation_invariant (w t s r : ℚ) :
    (0 ≤ pymod (t - w) 360 ∧ pymod (t - w) 360 < 360) ∧
    judge_seat_detailed (pymod (w + r) 360) (some (pymod (t + r) 360)) s
      = judge_seat_detailed w (some t) s ∧
    judge_seat_detailed (pymod (w + r) 360) none s = judge_seat_detailed w none s := by
  refine ⟨⟨pymod_nonneg _ (by norm_num), pymod_lt _ (by norm_num)⟩, ?_, rfl⟩
  have key : pymod (pymod (t + r) 360 - pymod (w + r) 360) 360 = pymod (t - w) 360 := by
    have e1 : pymod (t + r) 360 - pymod (w + r) 360
        = (t - w) + 360 * ((⌊(w + r) / 360⌋ - ⌊(t + r) / 360⌋ : ℤ) : ℚ) := by
      simp only [pymod]
      push_cast
      ring
    rw [e1, pymod_add_mul_int _ _ _ (by norm_num)]
  simp only [judge_seat_detailed, key]

/-- C8: with a
present tide direction and wind speed at least 1.0, the classifier maps
`rel = pymod (tide_dir - wind_dir) 360` into exactly one of the six
half-open sectors; a boundary value such as `rel = 45` belongs to the
next sector. -/
theorem judge_seat_sectors (w t s rel : ℚ) (hs : 1 ≤ s)
    (hrel : rel = pymod (t - w) 360) :
    (0 ≤ rel ∧ rel < 360) ∧
    (rel < 45 → judge_seat_detailed w (some t) s = ("🟢右ミヨシ(前)", "#00b894")) ∧
    (45 ≤ rel → rel < 135 → judge_seat_detailed w (some t) s = ("🟢右舷 胴", "#55efc4")) ∧
    (135 ≤ rel → rel < 180 → judge_seat_detailed w (some t) s = ("🟢右トモ(後)", "#00cec9")) ∧
    (180 ≤ rel → rel < 225 → judge_seat_detailed w (some t) s = ("🔴左トモ(後)", "#6c5ce7")) ∧
    (225 ≤ rel → rel < 315 → judge_seat_detailed w (some t) s = ("🔴左舷 胴", "#fab1a0")) ∧
    (315 ≤ rel → rel < 360 → judge_seat_detailed w (some t) s = ("🔴左ミヨシ(前)", "#e17055")) := by
  have hs' : ¬ s < 1 := not_lt.mpr hs
  have h0 : 0 ≤ rel := by rw [hrel]; exact pymod_nonneg _ (by norm_num)
  have h360 : rel < 360 := by rw [hrel]; exact pymod_lt _ (by norm_num)
  rw [judge_seat_some_eq w t s hs', ← hrel]
  refine ⟨⟨h0, h360⟩, ?_, ?_, ?_, ?_, ?_, ?_⟩
  · intro hb
    rw [if_pos ⟨h0, hb⟩]
  · intro ha hb
    rw [if_neg (fun hc => by linarith [hc.2]), if_pos ⟨ha, hb⟩]
  · intro ha hb
    rw [if_neg (fun hc => by linarith [hc.2]), if_neg (fun hc => by linarith [hc.2]),
      if_pos ⟨ha, hb⟩]
  · intro ha hb
    rw [if_neg (fun hc => by linarith [hc.2]), if_neg (fun hc => by linarith [hc.2]),
      if_neg (fun hc => by linarith [hc.2]), if_pos ⟨ha, hb⟩]
  · intro ha hb
    rw [if_neg (fun hc => by linarith [hc.2]), if_neg (fun hc => by linarith [hc.2]),
      if_neg (fun hc => by linarith [hc.2]), if_neg (fun hc => by linarith [hc.2]),
      if_pos ⟨ha, hb⟩]
  · intro ha hb
    rw [if_neg (fun hc => by linarith [hc.2]), if_neg (fun hc => by linarith [hc.2]),
      if_neg (fun hc => by linarith [hc.2]), if_neg (fun hc => by linarith [hc.2]),
      if_neg (fun hc => by linarith [hc.2]), if_pos ⟨ha, hb⟩]

/-- Witness for C8: `classify(wind_dir=0, tide_dir=45, wind_speed=5)` is
mid-starboard, because `rel = 45` falls in `[45, 135)`, not `[0, 45)`. -/
theorem judge_seat_sectors_witness :
    (1:ℚ) ≤ 5 ∧ (45:ℚ) = pymod (45 - 0) 360 ∧
    judge_seat_detailed 0 (some 45) 5 = ("🟢右舷 胴", "#55efc4") :=
  ⟨by norm_num, by decide,
    ((judge_seat_sectors 0 45 5 45 (by norm_num) (by decide)).2.2.1 (by norm_num) (by norm_num))⟩

/-- C4 counterexample: the compass labeler sends direction 44 to
north-east ("北東"), not north ("北") as the claim states — with the
22.5°-offset buckets, 44° lies in the `[22.5, 67.5)` bucket. -/
theorem wind_label_44 : get_wind_label 44 = "北東" ∧ "北東" ≠ "北" := by decide

/-- C4 (amended: `label(44) = NE`, the rest as claimed): the bucket index
`floor (((d + 22.5) mod 360) / 45)` always lies in `[0, 8)`, and the
boundary values are `label(0) = N`, `label(359) = N`, `label(44) = NE`,
`label(45) = NE`. -/
theorem wind_label_spec :
    (∀ d : ℚ, 0 ≤ ⌊pymod (d + 22.5) 360 / 45⌋ ∧ ⌊pymod (d + 22.5) 360 / 45⌋ < 8) ∧
    get_wind_label 0 = "北" ∧ get_wind_label 359 = "北" ∧
    get_wind_label 44 = "北東" ∧ get_wind_label 45 = "北東" := by
  refine ⟨fun d => ⟨?_, ?_⟩, by decide, by decide, by decide, by decide⟩
  · exact Int.floor_nonneg.mpr (div_nonneg (pymod_nonneg _ (by norm_num)) (by norm_num))
  · refine Int.floor_lt.mpr ?_
    rw [div_lt_iff₀ (by norm_num : (0:ℚ) < 45)]
    have := pymod_lt (d + 22.5) (show (0:ℚ) < 360 by norm_num)
    push_cast
    linarith

lemma mem_of_getLast?_eq {α : Type*} {l : List α} {y : α} (h : l.getLast? = some y) :
    y ∈ l := by
  induction l with
  | nil => simp at h
  | cons a l ih =>
    cases l with
    | nil =>
      rw [List.getLast?_singleton] at h
      rw [Option.some_inj] at h
      subst h
      exact List.mem_singleton_self a
    | cons b m =>
      rw [List.getLast?_cons_cons] at h
      exact List.mem_cons_of_mem a (ih h)

lemma getLast?_rel_of_pairwise {α : Type*} {r : α → α → Prop} :
    ∀ {l : List α}, l.Pairwise r → ∀ {y : α}, l.getLast? = some y →
      ∀ x ∈ l, r x y ∨ x = y := by
  intro l
  induction l with
  | nil => intro _ y hy; simp at hy
  | cons a l ih =>
    intro hp y hy x hx
    cases l with
    | nil =>
      rw [List.getLast?_singleton, Option.some_inj] at hy
      rw [List.mem_singleton] at hx
      subst hy
      subst hx
      exact Or.inr rfl
    | cons b m =>
      rw [List.getLast?_cons_cons] at hy
      rcases List.mem_cons.mp hx with rfl | hx'
      · exact Or.inl ((List.pairwise_cons.mp hp).1 y (mem_of_getLast?_eq hy))
      · exact ih (List.pairwise_cons.mp hp).2 hy x hx'

/-- C6: with no tide events, `get_tide_status` is the sinusoidal fallback:
`cycle = sin(elapsed_hours * 2π / 12.4)` thresholded at `±0.3` picks
west-flow (270), east-flow (90) or calm, always with type "calc"; at the
anchor instant itself `cycle = 0`, so the status is calm. -/
theorem tide_fallback_spec :
    (∀ dt : ℚ, get_tide_status dt [] =
      (if Real.sin ((((dt : ℝ) - (base_time : ℝ)) / 3600) * 2 * Real.pi / 12.4) > 0.3
        then ⟨some 270, "西流(予)", "calc"⟩
        else if Real.sin ((((dt : ℝ) - (base_time : ℝ)) / 3600) * 2 * Real.pi / 12.4) < -0.3
        then ⟨some 90, "東流(予)", "calc"⟩
        else ⟨none, "潮止まり", "calc"⟩)) ∧
    get_tide_status base_time [] = ⟨none, "潮止まり", "calc"⟩ := by
  constructor
  · intro dt
    rfl
  · show tideFallback base_time = _
    simp only [tideFallback, base_time]
    norm_num

/-- C1 counterexample: the tide events hold a turning event 20 minutes
from the query (well inside the 40-minute window), but a non-turning
event is strictly closer, so the code returns that flow, not calm. -/
theorem turning_window_cex :
    (∃ ev ∈ [TideEvent.mk 0 (some 90) "東流", TideEvent.mk 1800 none "転流"],
      ev.label = "転流" ∧ |(600 : ℚ) - ev.time| / 60 ≤ 40) ∧
    get_tide_status 600 [TideEvent.mk 0 (some 90) "東流", TideEvent.mk 1800 none "転流"]
      = ⟨some 90, "東流", "real"⟩ ∧
    (⟨some 90, "東流", "real"⟩ : TideStatus) ≠ ⟨none, "潮止まり", "real"⟩ := by
  decide

/-- C1 (amended: the 40-minute calm rule fires exactly when the closest
event — minimum absolute time difference, ties to the first in input
order — is itself a turning event within 40 minutes; a strictly closer
non-turning event defeats the rule): under that condition the resolver
returns direction=null, label=calm, type="real". -/
theorem turning_window_calm (dt : ℚ) (e : TideEvent) (es : List TideEvent)
    (h1 : (closestEvent dt e es).label = "転流")
    (h2 : |dt - (closestEvent dt e es).time| / 60 ≤ 40) :
    get_tide_status dt (e :: es) = ⟨none, "潮止まり", "real"⟩ := by
  show resolveEvents dt e es = _
  simp only [resolveEvents]
  rw [if_pos ⟨h1, h2⟩]

/-- Witness for C1 (amended) on a single turning event 10 minutes away. -/
theorem turning_window_calm_witness :
    (closestEvent 600 ⟨0, none, "転流"⟩ []).label = "転流" ∧
    |(600 : ℚ) - (closestEvent 600 ⟨0, none, "転流"⟩ []).time| / 60 ≤ 40 ∧
    get_tide_status 600 [⟨0, none, "転流"⟩] = ⟨none, "潮止まり", "real"⟩ :=
  ⟨by decide, by decide, turning_window_calm 600 ⟨0, none, "転流"⟩ [] (by decide) (by decide)⟩

/-- C2 counterexample: an unsorted store whose every event is in the past.
The latest event by timestamp is the east-flow one at t=7200, but the code
takes `past[-1]` in input order and returns the west-flow event at t=3600.
(No turning events, so the 40-minute rule is vacuous; its failure is
recorded as a conjunct.) -/
theorem past_order_cex :
    get_tide_status 10800 [TideEvent.mk 7200 (some 90) "東流", TideEvent.mk 3600 (some 270) "西流"]
      = ⟨some 270, "西流", "real"⟩ ∧
    (∀ x ∈ [TideEvent.mk 7200 (some 90) "東流", TideEvent.mk 3600 (some 270) "西流"],
      x.time ≤ 10800 ∧ x.time ≤ 7200) ∧
    TideEvent.mk 7200 (some 90) "東流"
      ∈ [TideEvent.mk 7200 (some 90) "東流", TideEvent.mk 3600 (some 270) "西流"] ∧
    ¬((closestEvent 10800 (TideEvent.mk 7200 (some 90) "東流") [TideEvent.mk 3600 (some 270) "西流"]).label = "転流" ∧
      |(10800 : ℚ) - (closestEvent 10800 (TideEvent.mk 7200 (some 90) "東流") [TideEvent.mk 3600 (some 270) "西流"]).time| / 60 ≤ 40) ∧
    (⟨some 270, "西流", "real"⟩ : TideStatus) ≠ ⟨some 90, "東流", "real"⟩ := by
  decide

/-- C2 (amended: the code selects `past[-1]` in input order, or the first
event in input order when no event is in the past; only on a store sorted
ascending by timestamp does this coincide with the claim's latest-past /
earliest-overall selection): on sorted input, the selected event is a
member, is the latest among events with timestamp ≤ the query time when
any exists, and is the head — earliest overall — when none is. -/
theorem past_current_sorted (dt : ℚ) (e : TideEvent) (es : List TideEvent)
    (hs : (e :: es).Pairwise (fun a b => a.time ≤ b.time)) :
    pastCurrent dt e es ∈ e :: es ∧
    ((∃ x ∈ e :: es, x.time ≤ dt) →
      (pastCurrent dt e es).time ≤ dt ∧
      ∀ x ∈ e :: es, x.time ≤ dt → x.time ≤ (pastCurrent dt e es).time) ∧
    ((∀ x ∈ e :: es, ¬ x.time ≤ dt) →
      pastCurrent dt e es = e ∧ ∀ x ∈ e :: es, (pastCurrent dt e es).time ≤ x.time) := by
  have hpf : ((e :: es).filter (fun ev => ev.time ≤ dt)).Pairwise
      (fun a b => a.time ≤ b.time) := hs.filter _
  cases hlast : ((e :: es).filter (fun ev => ev.time ≤ dt)).getLast? with
  | none =>
    have hnil : (e :: es).filter (fun ev => ev.time ≤ dt) = [] :=
      List.getLast?_eq_none_iff.mp hlast
    have hpc : pastCurrent dt e es = e := by
      simp only [pastCurrent, hlast, Option.getD_none]
    refine ⟨by rw [hpc]; exact List.mem_cons_self e es, ?_, ?_⟩
    · rintro ⟨x, hx, hxle⟩
      have : x ∈ (e :: es).filter (fun ev => ev.time ≤ dt) :=
        List.mem_filter.mpr ⟨hx, by simpa using hxle⟩
      rw [hnil] at this
      simp at this
    · intro _
      refine ⟨hpc, ?_⟩
      intro x hx
      rw [hpc]
      rcases List.mem_cons.mp hx with rfl | hx'
      · exact le_refl _
      · exact (List.pairwise_cons.mp hs).1 x hx'
  | some y =>
    have hpc : pastCurrent dt e es = y := by
      simp only [pastCurrent, hlast, Option.getD_some]
    have hymem : y ∈ (e :: es).filter (fun ev => ev.time ≤ dt) :=
      mem_of_getLast?_eq hlast
    have hy1 : y ∈ e :: es := (List.mem_filter.mp hymem).1
    have hy2 : y.time ≤ dt := by
      have := (List.mem_filter.mp hymem).2
      simpa using this
    refine ⟨by rw [hpc]; exact hy1, ?_, ?_⟩
    · intro _
      refine ⟨by rw [hpc]; exact hy2, ?_⟩
      intro x hx hxle
      have hxf : x ∈ (e :: es).filter (fun ev => ev.time ≤ dt) :=
        List.mem_filter.mpr ⟨hx, by simpa using hxle⟩
      rw [hpc]
      rcases getLast?_rel_of_pairwise hpf hlast x hxf with h | h
      · exact h
      · exact h ▸ le_refl _
    · intro hall
      exact absurd hy2 (hall y hy1)

/-- Witness for C2 (amended) on a sorted two-event store. -/
theorem past_current_sorted_witness :
    ([TideEvent.mk 0 (some 90) "東流", TideEvent.mk 3600 (some 270) "西流"]).Pairwise
      (fun a b => a.time ≤ b.time) ∧
    pastCurrent 5400 (TideEvent.mk 0 (some 90) "東流") [TideEvent.mk 3600 (some 270) "西流"]
      ∈ [TideEvent.mk 0 (some 90) "東流", TideEvent.mk 3600 (some 270) "西流"] :=
  ⟨by decide,
    (past_current_sorted 5400 (TideEvent.mk 0 (some 90) "東流")
      [TideEvent.mk 3600 (some 270) "西流"] (by decide)).1⟩

/-- C3 counterexample: a two-event store with only defined labels, queried
with every event more than 40 minutes in the past, also surfaces the raw
"turning" label — so the single-turning-event store is not the only such
input. -/
theorem raw_turning_cex :
    get_tide_status 10800 [TideEvent.mk 0 (some 90) "東流", TideEvent.mk 3600 none "転流"]
      = ⟨none, "転流", "real"⟩ ∧
    ([TideEvent.mk 0 (some 90) "東流", TideEvent.mk 3600 none "転流"] : List TideEvent).length = 2 ∧
    (∀ x ∈ [TideEvent.mk 0 (some 90) "東流", TideEvent.mk 3600 none "転流"],
      x.label = "東流" ∨ x.label = "西流" ∨ x.label = "転流") ∧
    (∀ x ∈ [TideEvent.mk 0 (some 90) "東流", TideEvent.mk 3600 none "転流"],
      40 < |(10800 : ℚ) - x.time| / 60) := by
  decide

/-- C3 (amended: the degenerate single-turning-event store does return the
raw "turning" label outside the 40-minute window, but it is not the only
non-empty input doing so — any store whose finally selected event is a
turning event with no future event behaves the same, see the
counterexample): a singleton turning store queried more than 40 minutes
away yields direction=null, label="turning", type="real". -/
theorem single_turning_raw (dt t : ℚ) (h : 40 < |dt - t| / 60) :
    get_tide_status dt [⟨t, none, "転流"⟩] = ⟨none, "転流", "real"⟩ := by
  show resolveEvents dt ⟨t, none, "転流"⟩ [] = _
  simp only [resolveEvents, pastCurrent]
  rw [if_neg (fun hc => absurd hc.2 (not_le.mpr h))]
  by_cases hle : t ≤ dt
  · simp [List.filter_cons, hle, not_lt.mpr hle]
  · simp [List.filter_cons, hle, not_le.mp hle]

/-- Witness for C3 (amended): the single turning event at t=0 queried at
t=10800 s (180 minutes away). -/
theorem single_turning_raw_witness :
    (40 : ℚ) < |(10800 : ℚ) - 0| / 60 ∧
    get_tide_status 10800 [⟨0, none, "転流"⟩] = ⟨none, "転流", "real"⟩ :=
  ⟨by decide, single_turning_raw 10800 0 (by decide)⟩

/-- C5: when the 40-minute calm rule does not fire and the selected
`current` event is a turning event, the resolver advances to the first
event in the store with timestamp strictly after the query time, when one
exists, and returns that event's direction and label with type "real". -/
theorem turning_advances_future (dt : ℚ) (e : TideEvent) (es : List TideEvent) (f : TideEvent)
    (hcalm : ¬((closestEvent dt e es).label = "転流" ∧
      |dt - (closestEvent dt e es).time| / 60 ≤ 40))
    (hcur : (pastCurrent dt e es).label = "転流")
    (hfut : ((e :: es).filter (fun ev => dt < ev.time)).head? = some f) :
    get_tide_status dt (e :: es) = ⟨f.dir, f.label, "real"⟩ := by
  show resolveEvents dt e es = _
  simp only [resolveEvents]
  rw [if_neg hcalm, if_pos hcur]
  rcases hfilter : (e :: es).filter (fun ev => dt < ev.time) with _ | ⟨f', l⟩
  · rw [hfilter] at hfut
    simp at hfut
  · rw [hfilter] at hfut
    rw [List.head?_cons, Option.some_inj] at hfut
    subst hfut
    rw [hfilter]

/-- Witness for C5: the spec's own example
`[{T-2h, east-flow, 90}, {T, turning, null}, {T+2h, west-flow, 270}]`
resolved at `T+90min` (model: T = 0 s, query at 5400 s) gives
west-flow/270. -/
theorem turning_advances_future_witness :
    ¬((closestEvent 5400 (TideEvent.mk (-7200) (some 90) "東流")
        [TideEvent.mk 0 none "転流", TideEvent.mk 7200 (some 270) "西流"]).label = "転流" ∧
      |(5400 : ℚ) - (closestEvent 5400 (TideEvent.mk (-7200) (some 90) "東流")
        [TideEvent.mk 0 none "転流", TideEvent.mk 7200 (some 270) "西流"]).time| / 60 ≤ 40) ∧
    (pastCurrent 5400 (TideEvent.mk (-7200) (some 90) "東流")
      [TideEvent.mk 0 none "転流", TideEvent.mk 7200 (some 270) "西流"]).label = "転流" ∧
    (([TideEvent.mk (-7200) (some 90) "東流", TideEvent.mk 0 none "転流",
        TideEvent.mk 7200 (some 270) "西流"]).filter (fun ev => (5400 : ℚ) < ev.time)).head?
      = some (TideEvent.mk 7200 (some 270) "西流") ∧
    get_tide_status 5400 [TideEvent.mk (-7200) (some 90) "東流", TideEvent.mk 0 none "転流",
        TideEvent.mk 7200 (some 270) "西流"] = ⟨some 270, "西流", "real"⟩ :=
  ⟨by decide, by decide, by decide,
    turning_advances_future 5400 (TideEvent.mk (-7200) (some 90) "東流")
      [TideEvent.mk 0 none "転流", TideEvent.mk 7200 (some 270) "西流"]
      (TideEvent.mk 7200 (some 270) "西流") (by decide) (by decide) (by decide)⟩
